import Mathlib

/-!
Verification of the storekit receipt-verification client (`src/client.go`).

The Go file is shallowly embedded below.  External collaborators — the
`encoding/json` library and the HTTP transport used by `client.post`
(`http.DefaultClient`) — are modelled by an oracle structure `World`
supplying the outcome of each external operation; everything the
repository itself computes (`Verify`, `queryStore`, `parseResponse`,
`checkResendNeeded`, the configuration mutators and the control-character
stripping) is translated directly from the source.

The embedding of `Verify` additionally returns the receiver state after
the call (the Go methods take a pointer receiver, so receiver mutation is
threaded explicitly; none of the methods assigns to the receiver's
fields) and the list of transport calls made, in order, each recording
the URL and the request bytes handed to `post`.
-/

namespace storekit

/-- Errors as produced by the Go code: an error coming from an external
library or the transport, an `errors.Wrap msg cause`, or an
`errors.New msg`. -/
inductive GoError where
  | external (msg : String) : GoError
  | wrap (msg : String) (cause : GoError) : GoError
  | new (msg : String) : GoError
  deriving DecidableEq, Repr

instance instDecidableEqExcept {ε α : Type} [DecidableEq ε] [DecidableEq α] :
    DecidableEq (Except ε α)
  | .error a, .error b =>
    if h : a = b then .isTrue (by rw [h]) else .isFalse (fun hc => h (Except.error.inj hc))
  | .error _, .ok _ => .isFalse (fun hc => Except.noConfusion hc)
  | .ok _, .error _ => .isFalse (fun hc => Except.noConfusion hc)
  | .ok a, .ok b =>
    if h : a = b then .isTrue (by rw [h]) else .isFalse (fun hc => h (Except.ok.inj hc))

/-- Response bodies and serialized requests, at the level of Unicode code
points (the only processing the code performs on bodies is rune-wise:
`bytes.Map` over the decoded runes). -/
abbrev Bytes := List Char

/-- Modelled from the spec: the receipt request is an opaque payload
supplied by the caller, serialized without reinterpretation by the core
(its concrete Go struct lives outside `src/`). -/
structure ReceiptRequest where
  payload : String
  deriving DecidableEq, Repr

/-- Modelled from the spec: the decoded receipt response exposes at
minimum a numeric status code; all other fields are opaque pass-through
data (the concrete Go struct lives outside `src/`). -/
structure ReceiptResponse where
  status : Int
  deriving DecidableEq, Repr

/-- Modelled from the spec: status 21007, "sandbox (TEST) receipt sent to
production (LIVE)".  The constant's declaration lives outside `src/`; its
value is pinned by the comment at the 21007 branch of
`checkResendNeeded` in `src/client.go`. -/
def ReceiptResponseStatusSandboxReceiptSentToProduction : Int := 21007

/-- Modelled from the spec: status 21008, "production (LIVE) receipt sent
to sandbox (TEST)".  The constant's declaration lives outside `src/`; its
value is pinned by the comment at the 21008 branch of
`checkResendNeeded` in `src/client.go`. -/
def ReceiptResponseStatusProductionReceiptSentToSandbox : Int := 21008

def sandboxReceiptVerificationURL : String :=
  "https://sandbox.itunes.apple.com/verifyReceipt"

def productionReceiptVerificationURL : String :=
  "https://buy.itunes.apple.com/verifyReceipt"

/-- The client configuration (`type client struct` in the source). -/
structure client where
  verificationURL    : String
  autofixEnvironment : Bool
  deriving DecidableEq, Repr

/-- Oracle for the external collaborators of the core: the outcome of
`json.Marshal` on a request, the outcome of `c.post` (HTTP POST through
`http.DefaultClient`, including its status check and body read, already
wrapped into a single error on failure) for a given URL and request
bytes, and the outcome of `json.Unmarshal` of given bytes into a
`ReceiptResponse`. -/
structure World where
  jsonMarshal : ReceiptRequest → Except GoError Bytes
  postResult : String → Bytes → Except GoError Bytes
  jsonUnmarshalReceiptResponse : Bytes → Except GoError ReceiptResponse

/-- One transport call as observed at `post`: the URL dialed and the
request bytes sent. -/
structure Call where
  url : String
  reqBody : Bytes
  deriving DecidableEq, Repr

/-- The `(body, resp, err)` triple returned by `Verify` and `queryStore`;
`none` stands for Go's `nil`. -/
structure VerifyOut where
  body : Option Bytes
  resp : Option ReceiptResponse
  err  : Option GoError
  deriving DecidableEq, Repr

def NewVerificationClient : client :=
  { verificationURL    := productionReceiptVerificationURL
    autofixEnvironment := true }

/-- `func (c *client) OnSandboxEnv() *client` — sets the sandbox URL and
returns the receiver. -/
def client.OnSandboxEnv (c : client) : client :=
  { c with verificationURL := sandboxReceiptVerificationURL }

/-- `func (c *client) OnProductionEnv() *client` — sets the production
URL and returns the receiver. -/
def client.OnProductionEnv (c : client) : client :=
  { c with verificationURL := productionReceiptVerificationURL }

/-- `func (c *client) WithoutEnvAutoFix() *client` — disables auto-fix
and returns the receiver. -/
def client.WithoutEnvAutoFix (c : client) : client :=
  { c with autofixEnvironment := false }

def client.isSandbox (c : client) : Bool :=
  c.verificationURL == sandboxReceiptVerificationURL

def client.isProduction (c : client) : Bool :=
  c.verificationURL == productionReceiptVerificationURL

/-- Go's `unicode.IsControl`: for a rune in the Latin-1 range it tests
the `pC` property bit, which is set exactly for U+0000–U+001F and
U+007F–U+009F; for runes above Latin-1 it returns `false`.  This is
exactly the Unicode `Cc` (control) category. -/
def goIsControl (r : Char) : Bool :=
  if r.toNat ≤ 0xFF then
    r.toNat ≤ 0x1F || (0x7F ≤ r.toNat && r.toNat ≤ 0x9F)
  else
    false

/-- The anonymous mapping function passed to `bytes.Map` in
`parseResponse`: `-1` (drop) on control runes, the rune itself
otherwise. -/
def dropControlMapping (r : Char) : Int :=
  if goIsControl r then -1 else (r.toNat : Int)

/-- `bytes.Map` at the level of runes: apply the mapping to each rune,
dropping it when the mapping is negative. -/
def goBytesMap (mapping : Char → Int) : Bytes → Bytes
  | [] => []
  | r :: rest =>
    let m := mapping r
    if m < 0 then goBytesMap mapping rest
    else Char.ofNat m.toNat :: goBytesMap mapping rest

/-- `func parseResponse(body []byte) (*ReceiptResponse, error)`:
strip control runes with `bytes.Map`, then `json.Unmarshal` into a fresh
`ReceiptResponse`, wrapping a decode failure. -/
def parseResponse (w : World) (body : Bytes) : Except GoError ReceiptResponse :=
  match w.jsonUnmarshalReceiptResponse (goBytesMap dropControlMapping body) with
  | .error e => .error (GoError.wrap "could not unmarshal app store response" e)
  | .ok resp => .ok resp

/-- `func (c *client) post(...)`: the single HTTP transport call.  Its
outcome is the oracle's; it records the one call made.  (The Go body uses
only `http.DefaultClient`, never the receiver.) -/
def client.post (_c : client) (w : World) (requestBuf : Bytes) (url : String) :
    Except GoError Bytes × List Call :=
  (w.postResult url requestBuf, [⟨url, requestBuf⟩])

/-- `func (c *client) queryStore(...)`: post, then parse; `(nil, nil, err)`
on a post failure, `(body, nil, err)` on a parse failure, and
`(body, resp, nil)` on success. -/
def client.queryStore (c : client) (w : World) (requestBuf : Bytes) (url : String) :
    VerifyOut × List Call :=
  match c.post w requestBuf url with
  | (.error e, t) => (⟨none, none, some e⟩, t)
  | (.ok body, t) =>
    match parseResponse w body with
    | .error e => (⟨some body, none, some e⟩, t)
    | .ok resp => (⟨some body, some resp, none⟩, t)

/-- `func (c *client) checkResendNeeded(resp *ReceiptResponse)`: the
switch on `resp.Status`; `newUrl` keeps Go's zero value `""` when no
resend is needed. -/
def client.checkResendNeeded (c : client) (resp : ReceiptResponse) : Bool × String :=
  if resp.status = ReceiptResponseStatusSandboxReceiptSentToProduction then
    if c.isProduction then (true, sandboxReceiptVerificationURL) else (false, "")
  else if resp.status = ReceiptResponseStatusProductionReceiptSentToSandbox then
    if c.isSandbox then (true, productionReceiptVerificationURL) else (false, "")
  else (false, "")

/-- `func (c *client) Verify(ctx, receiptRequest)`.  Returns the
`(body, resp, err)` triple, the receiver state after the call (no
statement of the Go body assigns to the receiver, so it is passed
through unchanged in every branch), and the list of transport calls made.
The `resp = none` branch under `err = none` is unreachable
(`queryStore` never returns a `nil` error with a `nil` response; Go would
dereference the nil pointer in `checkResendNeeded`). -/
def client.Verify (c : client) (w : World) (receiptRequest : ReceiptRequest) :
    VerifyOut × client × List Call :=
  match w.jsonMarshal receiptRequest with
  | .error e =>
    (⟨none, none, some (GoError.wrap "could not marshal receipt request" e)⟩, c, [])
  | .ok reqJSON =>
    match c.queryStore w reqJSON c.verificationURL with
    | (out1, t1) =>
      match out1.err with
      | some _ => (out1, c, t1)
      | none =>
        if c.autofixEnvironment then
          match out1.resp with
          | some resp =>
            match c.checkResendNeeded resp with
            | (true, newUrl) =>
              match c.queryStore w reqJSON newUrl with
              | (out2, t2) => (out2, c, t1 ++ t2)
            | (false, _) => (out1, c, t1)
          | none => (out1, c, t1)
        else (out1, c, t1)

/-! ### Helper lemmas (shared; not claim theorems) -/

lemma queryStore_calls (c : client) (w : World) (b : Bytes) (u : String) :
    (c.queryStore w b u).2 = [⟨u, b⟩] := by
  unfold client.queryStore client.post
  rcases w.postResult u b with e | body
  · rfl
  · simp only
    rcases parseResponse w body with e | resp <;> rfl

lemma queryStore_post_error (c : client) (w : World) (b : Bytes) (u : String)
    (e : GoError) (hp : w.postResult u b = .error e) :
    c.queryStore w b u = (⟨none, none, some e⟩, [⟨u, b⟩]) := by
  unfold client.queryStore client.post
  rw [hp]

lemma queryStore_parse_error (c : client) (w : World) (b : Bytes) (u : String)
    (body : Bytes) (e : GoError)
    (hp : w.postResult u b = .ok body)
    (hu : parseResponse w body = .error e) :
    c.queryStore w b u = (⟨some body, none, some e⟩, [⟨u, b⟩]) := by
  unfold client.queryStore client.post
  rw [hp]
  simp only
  rw [hu]

lemma queryStore_ok (c : client) (w : World) (b : Bytes) (u : String)
    (body : Bytes) (resp : ReceiptResponse)
    (hp : w.postResult u b = .ok body)
    (hu : parseResponse w body = .ok resp) :
    c.queryStore w b u = (⟨some body, some resp, none⟩, [⟨u, b⟩]) := by
  unfold client.queryStore client.post
  rw [hp]
  simp only
  rw [hu]

lemma Verify_marshal_error (c : client) (w : World) (req : ReceiptRequest)
    (e : GoError) (hm : w.jsonMarshal req = .error e) :
    c.Verify w req =
      (⟨none, none, some (GoError.wrap "could not marshal receipt request" e)⟩, c, []) := by
  unfold client.Verify
  rw [hm]

lemma Verify_first_err (c : client) (w : World) (req : ReceiptRequest)
    (reqJSON : Bytes) (out1 : VerifyOut) (t1 : List Call) (e : GoError)
    (hm : w.jsonMarshal req = .ok reqJSON)
    (h1 : c.queryStore w reqJSON c.verificationURL = (out1, t1))
    (he : out1.err = some e) :
    c.Verify w req = (out1, c, t1) := by
  simp only [client.Verify, hm, h1, he]

lemma Verify_first_ok (c : client) (w : World) (req : ReceiptRequest)
    (reqJSON : Bytes) (body : Bytes) (resp : ReceiptResponse) (t1 : List Call)
    (hm : w.jsonMarshal req = .ok reqJSON)
    (h1 : c.queryStore w reqJSON c.verificationURL = (⟨some body, some resp, none⟩, t1)) :
    c.Verify w req =
      if c.autofixEnvironment then
        match c.checkResendNeeded resp with
        | (true, newUrl) =>
          ((c.queryStore w reqJSON newUrl).1, c, t1 ++ (c.queryStore w reqJSON newUrl).2)
        | (false, _) => (⟨some body, some resp, none⟩, c, t1)
      else (⟨some body, some resp, none⟩, c, t1) := by
  simp only [client.Verify, hm, h1]

lemma checkResendNeeded_eq (c : client) (resp : ReceiptResponse) :
    c.checkResendNeeded resp =
      if resp.status = 21007 ∧ c.isProduction = true then
        (true, sandboxReceiptVerificationURL)
      else if resp.status = 21008 ∧ c.isSandbox = true then
        (true, productionReceiptVerificationURL)
      else (false, "") := by
  unfold client.checkResendNeeded
  unfold ReceiptResponseStatusSandboxReceiptSentToProduction
    ReceiptResponseStatusProductionReceiptSentToSandbox
  rcases h7 : decide (resp.status = 21007) with _ | _ <;>
    rcases h8 : decide (resp.status = 21008) with _ | _ <;>
      simp_all

lemma Verify_first_noerr_nofix (c : client) (w : World) (req : ReceiptRequest)
    (reqJSON : Bytes) (out1 : VerifyOut) (t1 : List Call)
    (hm : w.jsonMarshal req = .ok reqJSON)
    (h1 : c.queryStore w reqJSON c.verificationURL = (out1, t1))
    (he : out1.err = none) (hfix : c.autofixEnvironment = false) :
    c.Verify w req = (out1, c, t1) := by
  simp only [client.Verify, hm, h1, he, hfix]
  rcases out1.resp with _ | resp <;> simp

lemma queryStore_err_none (c : client) (w : World) (b : Bytes) (u : String)
    (out1 : VerifyOut) (t1 : List Call)
    (h1 : c.queryStore w b u = (out1, t1)) (he : out1.err = none) :
    ∃ body resp, out1 = ⟨some body, some resp, none⟩ ∧
      w.postResult u b = .ok body ∧ parseResponse w body = .ok resp := by
  unfold client.queryStore client.post at h1
  rcases hp : w.postResult u b with e | body <;> rw [hp] at h1
  · simp only [Prod.mk.injEq] at h1
    rw [← h1.1] at he
    simp at he
  · simp only at h1
    rcases hu : parseResponse w body with e | resp <;> rw [hu] at h1 <;>
      simp only [Prod.mk.injEq] at h1
    · rw [← h1.1] at he
      simp at he
    · exact ⟨body, resp, h1.1.symm, rfl, hu⟩

lemma goIsControl_eq_cc (r : Char) :
    goIsControl r = (r.toNat ≤ 0x1F || (0x7F ≤ r.toNat && r.toNat ≤ 0x9F)) := by
  unfold goIsControl
  by_cases h : r.toNat ≤ 0xFF
  · simp [h]
  · simp only [h, if_false]
    have h1 : ¬ r.toNat ≤ 0x1F := by omega
    have h2 : ¬ r.toNat ≤ 0x9F := by omega
    simp [h1, h2]

lemma goBytesMap_dropControl_eq_filter (body : Bytes) :
    goBytesMap dropControlMapping body = body.filter (fun r => !goIsControl r) := by
  induction body with
  | nil => rfl
  | cons r rest ih =>
    by_cases hc : goIsControl r
    · have hm : dropControlMapping r = -1 := by simp [dropControlMapping, hc]
      simp [goBytesMap, hm, hc, ih]
    · have hm : dropControlMapping r = (r.toNat : Int) := by simp [dropControlMapping, hc]
      have hlt : ¬ ((r.toNat : Int) < 0) := by omega
      simp [goBytesMap, hm, hlt, hc, ih]

/-! ### Claim theorems -/

/-- C9: `NewVerificationClient` returns a client whose configured
verification URL is the production (LIVE) endpoint URL and whose auto-fix
flag is enabled. -/
theorem newVerificationClient_defaults :
    NewVerificationClient.verificationURL = productionReceiptVerificationURL ∧
    NewVerificationClient.autofixEnvironment = true :=
  ⟨rfl, rfl⟩

/-- C3: `Verify` leaves the stored configuration unchanged — the receiver
state after the call equals the state before it, in particular the
configured verification URL and the auto-fix flag keep their values, and
a subsequent `Verify` on the resulting client behaves exactly as a call
on the original client (auto-fix is not consumed; the originally
configured endpoint is reused and a resend may happen again). -/
theorem verify_preserves_configuration (w : World) (c : client) (req : ReceiptRequest) :
    (c.Verify w req).2.1 = c ∧
    ((c.Verify w req).2.1).verificationURL = c.verificationURL ∧
    ((c.Verify w req).2.1).autofixEnvironment = c.autofixEnvironment ∧
    ((c.Verify w req).2.1).Verify w req = c.Verify w req := by
  have h : (c.Verify w req).2.1 = c := by
    rcases hm : w.jsonMarshal req with e | reqJSON
    · rw [Verify_marshal_error c w req e hm]
    · rcases hq : c.queryStore w reqJSON c.verificationURL with ⟨out1, t1⟩
      rcases he : out1.err with _ | e
      · cases hfx : c.autofixEnvironment
        · rw [Verify_first_noerr_nofix c w req reqJSON out1 t1 hm hq he hfx]
        · obtain ⟨body, resp, hout, hp, hu⟩ :=
            queryStore_err_none c w reqJSON c.verificationURL out1 t1 hq he
          subst hout
          rw [Verify_first_ok c w req reqJSON body resp t1 hm hq]
          simp only [hfx, if_true]
          rcases hcr : c.checkResendNeeded resp with ⟨b, newUrl⟩
          cases b <;> rfl
      · rw [Verify_first_err c w req reqJSON out1 t1 e hm hq he]
  exact ⟨h, by rw [h], by rw [h], by rw [h]⟩

/-- C6: when serialization of the request fails, `Verify` returns a nil
body, a nil decoded response and the marshal error wrapped with a
marshalling description, and the transport is never called (the call
trace is empty). -/
theorem verify_marshal_failure (w : World) (c : client) (req : ReceiptRequest)
    (e : GoError) (hm : w.jsonMarshal req = .error e) :
    c.Verify w req =
      (⟨none, none, some (GoError.wrap "could not marshal receipt request" e)⟩, c, []) :=
  Verify_marshal_error c w req e hm

def wMarshalErr : World where
  jsonMarshal := fun _ => .error (.external "bad request")
  postResult := fun _ _ => .ok []
  jsonUnmarshalReceiptResponse := fun _ => .ok ⟨0⟩

/-- Witness for C6 at a concrete world whose marshalling fails. -/
theorem verify_marshal_failure_witness :
    NewVerificationClient.Verify wMarshalErr ⟨"r"⟩ =
      (⟨none, none,
         some (GoError.wrap "could not marshal receipt request" (.external "bad request"))⟩,
        NewVerificationClient, []) :=
  verify_marshal_failure wMarshalErr NewVerificationClient ⟨"r"⟩ (.external "bad request") rfl

/-- C2: at most one resend per `Verify` call — the transport is dialed at
most twice per invocation, for every world (in particular even when the
second decoded response again carries an environment-mismatch status):
there is no chaining or looping of resends. -/
theorem verify_at_most_two_transport_calls (w : World) (c : client) (req : ReceiptRequest) :
    ((c.Verify w req).2.2).length ≤ 2 := by
  rcases hm : w.jsonMarshal req with e | reqJSON
  · rw [Verify_marshal_error c w req e hm]
    simp
  · rcases hq : c.queryStore w reqJSON c.verificationURL with ⟨out1, t1⟩
    have ht1 : t1 = [⟨c.verificationURL, reqJSON⟩] := by
      have h := queryStore_calls c w reqJSON c.verificationURL
      rw [hq] at h
      exact h
    subst ht1
    rcases he : out1.err with _ | e
    · cases hfx : c.autofixEnvironment
      · rw [Verify_first_noerr_nofix c w req reqJSON out1 _ hm hq he hfx]
        simp
      · obtain ⟨body, resp, hout, hp, hu⟩ :=
          queryStore_err_none c w reqJSON c.verificationURL out1 _ hq he
        subst hout
        rw [Verify_first_ok c w req reqJSON body resp _ hm hq]
        simp only [hfx, if_true]
        rcases hcr : c.checkResendNeeded resp with ⟨b, newUrl⟩
        cases b
        · simp
        · simp [queryStore_calls]
    · rw [Verify_first_err c w req reqJSON out1 _ e hm hq he]
      simp

/-- C4: with auto-fix disabled, `Verify` never resends — at most one
transport call regardless of decoded status and endpoint, and whenever
serialization succeeds exactly one transport call is made and its
`(body, resp, err)` triple is returned unchanged. -/
theorem verify_without_autofix_no_resend (w : World) (c : client) (req : ReceiptRequest)
    (hfix : c.autofixEnvironment = false) :
    ((c.Verify w req).2.2).length ≤ 1 ∧
    ∀ reqJSON, w.jsonMarshal req = .ok reqJSON →
      c.Verify w req =
        ((c.queryStore w reqJSON c.verificationURL).1, c, [⟨c.verificationURL, reqJSON⟩]) := by
  constructor
  · rcases hm : w.jsonMarshal req with e | reqJSON
    · rw [Verify_marshal_error c w req e hm]
      simp
    · rcases hq : c.queryStore w reqJSON c.verificationURL with ⟨out1, t1⟩
      have ht1 : t1 = [⟨c.verificationURL, reqJSON⟩] := by
        have h := queryStore_calls c w reqJSON c.verificationURL
        rw [hq] at h
        exact h
      subst ht1
      rcases he : out1.err with _ | e
      · rw [Verify_first_noerr_nofix c w req reqJSON out1 _ hm hq he hfix]
        simp
      · rw [Verify_first_err c w req reqJSON out1 _ e hm hq he]
        simp
  · intro reqJSON hm
    rcases hq : c.queryStore w reqJSON c.verificationURL with ⟨out1, t1⟩
    have ht1 : t1 = [⟨c.verificationURL, reqJSON⟩] := by
      have h := queryStore_calls c w reqJSON c.verificationURL
      rw [hq] at h
      exact h
    subst ht1
    rcases he : out1.err with _ | e
    · rw [Verify_first_noerr_nofix c w req reqJSON out1 _ hm hq he hfix]
    · rw [Verify_first_err c w req reqJSON out1 _ e hm hq he]

def wNoFix : World where
  jsonMarshal := fun _ => .ok ['r']
  postResult := fun _ _ => .ok ['a']
  jsonUnmarshalReceiptResponse := fun _ => .ok ⟨21007⟩

/-- Witness for C4: an auto-fix-disabled production client receiving a
21007 status makes exactly one call and returns its outcome. -/
theorem verify_without_autofix_no_resend_witness :
    ((NewVerificationClient.WithoutEnvAutoFix.Verify wNoFix ⟨"r"⟩).2.2).length ≤ 1 ∧
    NewVerificationClient.WithoutEnvAutoFix.Verify wNoFix ⟨"r"⟩ =
      ((NewVerificationClient.WithoutEnvAutoFix.queryStore wNoFix ['r']
          productionReceiptVerificationURL).1,
        NewVerificationClient.WithoutEnvAutoFix,
        [⟨productionReceiptVerificationURL, ['r']⟩]) := by
  have h := verify_without_autofix_no_resend wNoFix NewVerificationClient.WithoutEnvAutoFix
      ⟨"r"⟩ rfl
  exact ⟨h.1, h.2 ['r'] rfl⟩

/-- C5: when the first attempt fails — the transport call errors, or the
body fails to decode — `Verify` returns that failure immediately after a
single transport call, with no resend, for every client (in particular
with auto-fix enabled). -/
theorem verify_first_attempt_failure_terminal (w : World) (c : client) (req : ReceiptRequest)
    (reqJSON : Bytes) (e : GoError)
    (hm : w.jsonMarshal req = .ok reqJSON) :
    (w.postResult c.verificationURL reqJSON = .error e →
       c.Verify w req = (⟨none, none, some e⟩, c, [⟨c.verificationURL, reqJSON⟩])) ∧
    (∀ body, w.postResult c.verificationURL reqJSON = .ok body →
       parseResponse w body = .error e →
       c.Verify w req = (⟨some body, none, some e⟩, c, [⟨c.verificationURL, reqJSON⟩])) := by
  constructor
  · intro hp
    exact Verify_first_err c w req reqJSON _ _ e hm
      (queryStore_post_error c w reqJSON _ e hp) rfl
  · intro body hp hu
    exact Verify_first_err c w req reqJSON _ _ e hm
      (queryStore_parse_error c w reqJSON _ body e hp hu) rfl

def wPostErr : World where
  jsonMarshal := fun _ => .ok ['r']
  postResult := fun _ _ => .error (.external "connection reset")
  jsonUnmarshalReceiptResponse := fun _ => .ok ⟨0⟩

/-- Witness for C5: an auto-fix-enabled client whose transport call
errors gets the error back after one call and no resend. -/
theorem verify_first_attempt_failure_terminal_witness :
    NewVerificationClient.Verify wPostErr ⟨"r"⟩ =
      (⟨none, none, some (.external "connection reset")⟩, NewVerificationClient,
        [⟨productionReceiptVerificationURL, ['r']⟩]) :=
  (verify_first_attempt_failure_terminal wPostErr NewVerificationClient ⟨"r"⟩ ['r']
      (.external "connection reset") rfl).1 rfl

/-- C8: when the transport call succeeds but the body fails to decode
even after control-character stripping, `Verify` returns the raw
(unstripped) body, a nil decoded response, and the decode error wrapped
with an unmarshalling description, after a single transport call. -/
theorem verify_decode_failure_returns_raw_body (w : World) (c : client) (req : ReceiptRequest)
    (reqJSON body : Bytes) (e : GoError)
    (hm : w.jsonMarshal req = .ok reqJSON)
    (hp : w.postResult c.verificationURL reqJSON = .ok body)
    (hu : w.jsonUnmarshalReceiptResponse (goBytesMap dropControlMapping body) = .error e) :
    c.Verify w req =
      (⟨some body, none, some (GoError.wrap "could not unmarshal app store response" e)⟩, c,
        [⟨c.verificationURL, reqJSON⟩]) := by
  have hpr : parseResponse w body =
      .error (GoError.wrap "could not unmarshal app store response" e) := by
    unfold parseResponse
    rw [hu]
  exact Verify_first_err c w req reqJSON _ _ _ hm
    (queryStore_parse_error c w reqJSON _ body _ hp hpr) rfl

def wDecodeErr : World where
  jsonMarshal := fun _ => .ok ['r']
  postResult := fun _ _ => .ok ['x']
  jsonUnmarshalReceiptResponse := fun _ => .error (.external "invalid json")

/-- Witness for C8: a body that fails decoding is returned raw together
with the wrapped decode error and a nil response. -/
theorem verify_decode_failure_returns_raw_body_witness :
    NewVerificationClient.Verify wDecodeErr ⟨"r"⟩ =
      (⟨some ['x'], none,
         some (GoError.wrap "could not unmarshal app store response" (.external "invalid json"))⟩,
        NewVerificationClient, [⟨productionReceiptVerificationURL, ['r']⟩]) :=
  verify_decode_failure_returns_raw_body wDecodeErr NewVerificationClient ⟨"r"⟩ ['r'] ['x']
    (.external "invalid json") rfl rfl rfl

/-- C7: the decoder strips (does not replace or escape) exactly the
Unicode control code points — category `Cc`, i.e. U+0000–U+001F and
U+007F–U+009F — before JSON-decoding; consequently any body whose
stripped form decodes successfully yields a decoded response with no
error. -/
theorem parseResponse_strips_control_code_points (w : World) (body : Bytes) :
    goBytesMap dropControlMapping body =
      body.filter (fun r => !(r.toNat ≤ 0x1F || (0x7F ≤ r.toNat && r.toNat ≤ 0x9F))) ∧
    (∀ resp,
      w.jsonUnmarshalReceiptResponse
          (body.filter (fun r => !(r.toNat ≤ 0x1F || (0x7F ≤ r.toNat && r.toNat ≤ 0x9F)))) =
        .ok resp →
      parseResponse w body = .ok resp) := by
  have hfe : body.filter (fun r => !(r.toNat ≤ 0x1F || (0x7F ≤ r.toNat && r.toNat ≤ 0x9F))) =
      body.filter (fun r => !goIsControl r) := by
    apply List.filter_congr
    intro r _
    rw [goIsControl_eq_cc]
  constructor
  · rw [goBytesMap_dropControl_eq_filter, hfe]
  · intro resp h
    unfold parseResponse
    rw [goBytesMap_dropControl_eq_filter, ← hfe, h]

def wCtl : World where
  jsonMarshal := fun _ => .ok ['r']
  postResult := fun _ _ => .ok ['{', '\n', '}']
  jsonUnmarshalReceiptResponse := fun b =>
    if b = ['{', '}'] then .ok ⟨0⟩ else .error (.external "invalid json")

/-- Witness for C7: a body with an embedded control character (U+000A)
decodes successfully once the control character is stripped. -/
theorem parseResponse_strips_control_code_points_witness :
    parseResponse wCtl ['{', '\n', '}'] = .ok ⟨0⟩ :=
  (parseResponse_strips_control_code_points wCtl ['{', '\n', '}']).2 ⟨0⟩ (by decide)

lemma Verify_resend_cases (w : World) (c : client) (req : ReceiptRequest)
    (reqJSON body : Bytes) (resp : ReceiptResponse)
    (hfix : c.autofixEnvironment = true)
    (hm : w.jsonMarshal req = .ok reqJSON)
    (hp : w.postResult c.verificationURL reqJSON = .ok body)
    (hu : parseResponse w body = .ok resp) :
    (resp.status = 21007 ∧ c.isProduction = true →
       c.Verify w req = ((c.queryStore w reqJSON sandboxReceiptVerificationURL).1, c,
         [⟨c.verificationURL, reqJSON⟩, ⟨sandboxReceiptVerificationURL, reqJSON⟩])) ∧
    (resp.status = 21008 ∧ c.isSandbox = true →
       c.Verify w req = ((c.queryStore w reqJSON productionReceiptVerificationURL).1, c,
         [⟨c.verificationURL, reqJSON⟩, ⟨productionReceiptVerificationURL, reqJSON⟩])) ∧
    (¬ ((resp.status = 21007 ∧ c.isProduction = true) ∨
        (resp.status = 21008 ∧ c.isSandbox = true)) →
       c.Verify w req = (⟨some body, some resp, none⟩, c, [⟨c.verificationURL, reqJSON⟩])) := by
  have h1 := queryStore_ok c w reqJSON c.verificationURL body resp hp hu
  have hV := Verify_first_ok c w req reqJSON body resp [⟨c.verificationURL, reqJSON⟩] hm h1
  rw [checkResendNeeded_eq c resp] at hV
  simp only [hfix, if_true] at hV
  refine ⟨?_, ?_, ?_⟩
  · intro hcond
    rw [if_pos hcond] at hV
    simp only [queryStore_calls, List.cons_append, List.nil_append] at hV
    exact hV
  · intro hcond
    have hn1 : ¬ (resp.status = 21007 ∧ c.isProduction = true) := by
      intro hcc
      have := hcond.1
      omega
    rw [if_neg hn1, if_pos hcond] at hV
    simp only [queryStore_calls, List.cons_append, List.nil_append] at hV
    exact hV
  · intro hcond
    push_neg at hcond
    rcases Decidable.em (resp.status = 21007 ∧ c.isProduction = true) with hc1 | hc1
    · exact absurd hc1.2 (hcond.1 hc1.1)
    · rcases Decidable.em (resp.status = 21008 ∧ c.isSandbox = true) with hc2 | hc2
      · exact absurd hc2.2 (hcond.2 hc2.1)
      · rw [if_neg hc1, if_neg hc2] at hV
        exact hV

/-- C1: for an auto-fix-enabled client whose first transport call and
decode succeed, a resend happens if and only if the decoded status is
21007 ("sandbox receipt sent to production") with the production
endpoint configured, or 21008 ("production receipt sent to sandbox")
with the sandbox endpoint configured; the resend goes to the opposite
fixed URL with the same serialized request bytes, and `Verify` returns
the second attempt's `(body, resp, err)` in place of the first's;
otherwise (in particular a sandbox-configured client receiving 21007)
no resend happens and the first attempt's outcome stands. -/
theorem verify_autofix_resend_characterization (w : World) (c : client) (req : ReceiptRequest)
    (reqJSON body : Bytes) (resp : ReceiptResponse)
    (hfix : c.autofixEnvironment = true)
    (hm : w.jsonMarshal req = .ok reqJSON)
    (hp : w.postResult c.verificationURL reqJSON = .ok body)
    (hu : parseResponse w body = .ok resp) :
    (((c.Verify w req).2.2).length = 2 ↔
       (resp.status = ReceiptResponseStatusSandboxReceiptSentToProduction ∧
          c.isProduction = true) ∨
       (resp.status = ReceiptResponseStatusProductionReceiptSentToSandbox ∧
          c.isSandbox = true)) ∧
    (resp.status = ReceiptResponseStatusSandboxReceiptSentToProduction →
       c.isProduction = true →
       c.Verify w req = ((c.queryStore w reqJSON sandboxReceiptVerificationURL).1, c,
         [⟨c.verificationURL, reqJSON⟩, ⟨sandboxReceiptVerificationURL, reqJSON⟩])) ∧
    (resp.status = ReceiptResponseStatusProductionReceiptSentToSandbox →
       c.isSandbox = true →
       c.Verify w req = ((c.queryStore w reqJSON productionReceiptVerificationURL).1, c,
         [⟨c.verificationURL, reqJSON⟩, ⟨productionReceiptVerificationURL, reqJSON⟩])) ∧
    (¬ ((resp.status = ReceiptResponseStatusSandboxReceiptSentToProduction ∧
           c.isProduction = true) ∨
        (resp.status = ReceiptResponseStatusProductionReceiptSentToSandbox ∧
           c.isSandbox = true)) →
       c.Verify w req = (⟨some body, some resp, none⟩, c, [⟨c.verificationURL, reqJSON⟩])) := by
  simp only [ReceiptResponseStatusSandboxReceiptSentToProduction,
    ReceiptResponseStatusProductionReceiptSentToSandbox]
  obtain ⟨hA, hB, hC⟩ := Verify_resend_cases w c req reqJSON body resp hfix hm hp hu
  refine ⟨⟨?_, ?_⟩, fun ha hb => hA ⟨ha, hb⟩, fun ha hb => hB ⟨ha, hb⟩, hC⟩
  · intro hlen
    by_contra hnc
    rw [hC hnc] at hlen
    simp at hlen
  · intro hcond
    rcases hcond with h | h
    · rw [hA h]
      simp
    · rw [hB h]
      simp

def wResend : World where
  jsonMarshal := fun _ => .ok ['r']
  postResult := fun url _ =>
    if url = productionReceiptVerificationURL then .ok ['a'] else .ok ['b']
  jsonUnmarshalReceiptResponse := fun b =>
    if b = ['a'] then .ok ⟨21007⟩ else .ok ⟨0⟩

/-- Witness for C1: a production-configured client with auto-fix that
receives status 21007 resends the same bytes to the sandbox URL and
returns the second attempt's outcome. -/
theorem verify_autofix_resend_characterization_witness :
    NewVerificationClient.Verify wResend ⟨"r"⟩ =
      ((NewVerificationClient.queryStore wResend ['r'] sandboxReceiptVerificationURL).1,
        NewVerificationClient,
        [⟨productionReceiptVerificationURL, ['r']⟩,
         ⟨sandboxReceiptVerificationURL, ['r']⟩]) := by
  have h := verify_autofix_resend_characterization wResend NewVerificationClient ⟨"r"⟩
      ['r'] ['a'] ⟨21007⟩ rfl rfl (by decide) (by decide)
  exact h.2.1 (by decide) (by decide)

/-- A configuration-mutator call on the client (one of the three fluent
setters). -/
inductive ConfigCall where
  | onSandboxEnv
  | onProductionEnv
  | withoutEnvAutoFix
  deriving DecidableEq, Repr

def applyConfigCall (c : client) : ConfigCall → client
  | .onSandboxEnv => c.OnSandboxEnv
  | .onProductionEnv => c.OnProductionEnv
  | .withoutEnvAutoFix => c.WithoutEnvAutoFix

lemma url_invariant_foldl (ms : List ConfigCall) (c : client)
    (h : c.verificationURL = sandboxReceiptVerificationURL ∨
         c.verificationURL = productionReceiptVerificationURL) :
    (ms.foldl applyConfigCall c).verificationURL = sandboxReceiptVerificationURL ∨
    (ms.foldl applyConfigCall c).verificationURL = productionReceiptVerificationURL := by
  induction ms generalizing c with
  | nil => exact h
  | cons m rest ih =>
    apply ih
    cases m
    · left
      rfl
    · right
      rfl
    · exact h

lemma urls_distinct : sandboxReceiptVerificationURL ≠ productionReceiptVerificationURL := by
  decide

/-- C10: every client reachable from `NewVerificationClient` through the
three configuration mutators carries one of the two fixed endpoint URLs,
so exactly one of `isSandbox` and `isProduction` holds; and each mutator
returns its receiver having changed only its own field (the endpoint
setters leave auto-fix untouched; `WithoutEnvAutoFix` leaves the URL
untouched). -/
theorem client_configuration_invariant :
    (∀ ms : List ConfigCall,
        ((((ms.foldl applyConfigCall NewVerificationClient).isSandbox = true ∧
           (ms.foldl applyConfigCall NewVerificationClient).isProduction = false) ∨
          ((ms.foldl applyConfigCall NewVerificationClient).isSandbox = false ∧
           (ms.foldl applyConfigCall NewVerificationClient).isProduction = true)) ∧
         ((ms.foldl applyConfigCall NewVerificationClient).verificationURL =
            sandboxReceiptVerificationURL ∨
          (ms.foldl applyConfigCall NewVerificationClient).verificationURL =
            productionReceiptVerificationURL))) ∧
    (∀ c : client,
        c.OnSandboxEnv = { c with verificationURL := sandboxReceiptVerificationURL } ∧
        c.OnProductionEnv = { c with verificationURL := productionReceiptVerificationURL } ∧
        c.WithoutEnvAutoFix = { c with autofixEnvironment := false } ∧
        c.OnSandboxEnv.autofixEnvironment = c.autofixEnvironment ∧
        c.OnProductionEnv.autofixEnvironment = c.autofixEnvironment ∧
        c.WithoutEnvAutoFix.verificationURL = c.verificationURL) := by
  constructor
  · intro ms
    have hurl := url_invariant_foldl ms NewVerificationClient (Or.inr rfl)
    refine ⟨?_, hurl⟩
    rcases hurl with h | h
    · left
      constructor
      · simp [client.isSandbox, h]
      · simp [client.isProduction, h]
        exact urls_distinct
    · right
      constructor
      · simp [client.isSandbox, h]
        exact fun hc => urls_distinct hc.symm
      · simp [client.isProduction, h]
  · intro c
    exact ⟨rfl, rfl, rfl, rfl, rfl, rfl⟩

end storekit
